import Mathlib

/-!
# object-layer: shallow embedding and verification

A shallow embedding of the object-layer ORM core (`src/item.js`,
`src/collection.js`, `src/store/local.js`, `src/store/index.js` and the
earlier generation of the same modules) together with proofs about that
embedding.  JavaScript values are modelled by the `Value` type, JS objects
holding field values by association lists (`Fields`), asynchronous fallible
code by explicit state passing plus `Except`, and object identity (where it
matters, e.g. `this !== this.root`) by explicit tags.  External collaborators
that the repository only calls (the `instance-store` engine, the `idgen`
token generator) are modelled from their interface contract as stated in the
specification and are marked as such in their doc comments.
-/

/-- A JavaScript value as far as the ORM core observes it: strings, numbers,
booleans, or `undefined`. -/
inductive Value where
  | vStr (s : String)
  | vNum (n : Int)
  | vBool (b : Bool)
  | vUndefined
deriving DecidableEq, Repr

/-- JavaScript truthiness: `0`, the empty string, `false` and `undefined`
are falsy, everything else is truthy (mirrors `if (x)` in the source). -/
def Value.truthy : Value → Bool
  | .vStr s => !(s == "")
  | .vNum n => !(n == 0)
  | .vBool b => b
  | .vUndefined => false

/-- The field values of a JS object, as an association list
(field name, value).  Keys are unique in any object built by the model. -/
abbrev Fields := List (String × Value)

/-- Property read `obj[k]`: the value stored under `k`, or `undefined`. -/
def Fields.getVal (fs : Fields) (k : String) : Value :=
  match fs.find? (fun p => p.1 == k) with
  | some p => p.2
  | none => .vUndefined

/-- Property assignment `obj[k] = v`: replaces the binding for `k`, or
appends one if the key was absent. -/
def Fields.setVal (fs : Fields) (k : String) (v : Value) : Fields :=
  if fs.any (fun p => p.1 == k) then
    fs.map (fun p => if p.1 == k then (k, v) else p)
  else
    fs ++ [(k, v)]

/-- The records held by a store, keyed by primary-key value
(`instance-store` content, one entry per stored instance). -/
abbrev StoreData := List (Value × Fields)

/-! ## Transactions (`src/store/local.js`, `src/collection.js`, `src/item.js`)

`LocalStore.transaction(fn)` either runs `fn` directly on `this` when the
view is already transactional, or asks the instance store for an isolated
transaction view (`Object.create(this)` with `instanceStore` replaced),
commits its data on normal return and discards it when `fn` throws.
Object identity against the root (`this !== this.root`) is modelled by the
`isRootObject` tag: the root store is its own root, every view produced by
`transaction` is a fresh object and hence not the root. -/

/-- A `LocalStore` view: the root store or a transaction view over it. -/
structure LocalStoreView where
  /-- Whether this view object is its own `root` (`this === this.root`). -/
  isRootObject : Bool
  /-- The records visible through this view's `instanceStore`. -/
  data : StoreData
deriving DecidableEq, Repr

/-- `new LocalStore(options)`: the root view (`this.root = this`). -/
def mkLocalStore (d : StoreData) : LocalStoreView :=
  { isRootObject := true, data := d }

/-- `LocalStore#insideTransaction`: `this !== this.root`. -/
def LocalStoreView.insideTransaction (v : LocalStoreView) : Bool :=
  !v.isRootObject

/-- The transaction view handed to the callback:
`Object.create(this)` with `instanceStore` bound to the instance-store
transaction (a fresh object, so not the root; initially sees the same
data). -/
def LocalStoreView.txView (v : LocalStoreView) : LocalStoreView :=
  { isRootObject := false, data := v.data }

/-- `LocalStore#transaction(fn)`: runs `fn` directly when already inside a
transaction; otherwise runs `fn` against the isolated view, committing its
data on normal return and rolling it back (modelled from the spec:
`instance-store`'s `transaction(fn)` discards the view's effects when `fn`
throws) on an exception, which is rethrown. -/
def LocalStoreView.transaction {ε α : Type} (v : LocalStoreView)
    (fn : LocalStoreView → LocalStoreView × Except ε α) :
    LocalStoreView × Except ε α :=
  if v.insideTransaction then fn v
  else
    match fn v.txView with
    | (v2, .ok a) => ({ v with data := v2.data }, .ok a)
    | (_, .error e) => (v, .error e)

/-- `Collection#insideTransaction`: delegates to `this.store`. -/
def Collection.insideTransaction (v : LocalStoreView) : Bool :=
  v.insideTransaction

/-! ## Item state for the `Item`/`Collection` generation (`src/item.js`)

An `Item`'s observable lifecycle state: its field values plus the stored
flags `_isSaved` (read through `isNew`) and `_isModified` (read through
`isModified`). -/

/-- The state of an `Item` (the `Collection`-based generation). -/
structure ItemState where
  /-- The item's field values. -/
  fields : Fields
  /-- The `_isSaved` flag (`isNew` reads `!_isSaved`). -/
  isSavedFlag : Bool
  /-- The `_isModified` flag (`isModified` reads it directly). -/
  isModifiedFlag : Bool
deriving DecidableEq, Repr

/-- `Item#isNew`: `!this._isSaved`. -/
def ItemState.isNew (it : ItemState) : Bool := !it.isSavedFlag

/-- `Item#isModified`: the `_isModified` flag, read directly. -/
def ItemState.isModified (it : ItemState) : Bool := it.isModifiedFlag

/-- `transactionCollection.unserialize(this)` followed by copying `isNew`
and `isModified` onto the transaction item (`Item#transaction`). -/
def ItemState.txCopy (it : ItemState) : ItemState :=
  { fields := it.fields
    isSavedFlag := it.isSavedFlag
    isModifiedFlag := it.isModifiedFlag }

/-- `this.replaceValue(transactionItem)` followed by
`this.isNew = transactionItem.isNew; this.isModified =
transactionItem.isModified` — the merge-back on normal return. -/
def ItemState.mergeBack (_original txItem : ItemState) : ItemState :=
  { fields := txItem.fields
    isSavedFlag := txItem.isSavedFlag
    isModifiedFlag := txItem.isModifiedFlag }

/-- `Item#insideTransaction`: delegates to `this.collection`. -/
def Item.insideTransaction (v : LocalStoreView) : Bool :=
  Collection.insideTransaction v

/-- `Item#transaction(fn)` (`src/item.js` lines 318–331), composed with
`Collection#transaction` and `LocalStore#transaction`: when already inside a
transaction, `fn` runs directly on the current view and item; otherwise a
transaction item is unserialized from `this`, gets `isNew`/`isModified`
copied, `fn` runs against the store's transaction view, and only on normal
return is the transaction item's state merged back into the original. -/
def Item.transaction {ε α : Type} (v : LocalStoreView) (item : ItemState)
    (fn : LocalStoreView → ItemState → LocalStoreView × ItemState × Except ε α) :
    LocalStoreView × ItemState × Except ε α :=
  if Item.insideTransaction v then fn v item
  else
    match LocalStoreView.transaction v (fun tv =>
        let txItem := item.txCopy
        let r := fn tv txItem
        (r.1, (r.2.2).map (fun a => (r.2.1, a)))) with
    | (v2, .ok (it2, a)) => (v2, item.mergeBack it2, .ok a)
    | (v2, .error e) => (v2, item, .error e)

/-! ## Demo inputs used by witnesses -/

/-- A root store holding one record (person `bbb`). -/
def demoStore : LocalStoreView :=
  mkLocalStore [(Value.vStr "bbb", [("lastName", Value.vStr "Daniel")])]

/-- The in-memory item for person `bbb`, loaded (saved, unmodified). -/
def demoItem : ItemState :=
  { fields := [("lastName", Value.vStr "Daniel")]
    isSavedFlag := true
    isModifiedFlag := false }

/-- A transaction callback that mutates the item and the view, saves, then
throws (`test.js`: cancel a change inside an aborted transaction). -/
def demoFailFn (tv : LocalStoreView) (it : ItemState) :
    LocalStoreView × ItemState × Except String Unit :=
  let it2 : ItemState :=
    { it with fields := it.fields.setVal "lastName" (Value.vStr "D.")
              isModifiedFlag := true }
  ({ tv with data := [(Value.vStr "bbb", it2.fields)] }, it2, Except.error "something is wrong")

/-- C1: for an item not already inside a transaction, if the callback passed
to `transaction(fn)` throws, the underlying store view is rolled back, the
same exception is rethrown unchanged, and the original item's field values
and lifecycle flags are exactly what they were before the transaction
began; the transaction item's state is merged back into the original only
on normal return. -/
theorem transaction_rollback_on_error_merge_on_return {ε α : Type}
    (v : LocalStoreView) (item : ItemState)
    (fn : LocalStoreView → ItemState → LocalStoreView × ItemState × Except ε α)
    (hout : v.insideTransaction = false) :
    (∀ tv2 it2 e, fn v.txView item.txCopy = (tv2, it2, Except.error e) →
        Item.transaction v item fn = (v, item, Except.error e))
    ∧ (∀ tv2 it2 a, fn v.txView item.txCopy = (tv2, it2, Except.ok a) →
        Item.transaction v item fn =
          ({ v with data := tv2.data }, item.mergeBack it2, Except.ok a)) := by
  constructor
  · intro tv2 it2 e h
    simp [Item.transaction, Item.insideTransaction, Collection.insideTransaction, hout,
      LocalStoreView.transaction, h, Except.map]
  · intro tv2 it2 a h
    simp [Item.transaction, Item.insideTransaction, Collection.insideTransaction, hout,
      LocalStoreView.transaction, h, Except.map]

/-- Witness for C1 at a concrete input: the aborted-transaction scenario of
`test.js` leaves the store and the item exactly as they were and surfaces
the same exception. -/
theorem transaction_rollback_on_error_merge_on_return_witness :
    Item.transaction demoStore demoItem demoFailFn =
      (demoStore, demoItem, Except.error "something is wrong") := by
  have h :=
    (transaction_rollback_on_error_merge_on_return demoStore demoItem demoFailFn rfl).1
  exact h _ _ "something is wrong" rfl

/-- C7: `insideTransaction` is true iff the Store/Collection/Item view is
not the root (un-transacted) one, and calling `transaction(fn)` on a view
already inside a transaction runs `fn` directly against that same view,
without creating a second isolation level. -/
theorem insideTransaction_iff_not_root {ε α : Type}
    (d : StoreData) (v : LocalStoreView) (item : ItemState)
    (fn : LocalStoreView → LocalStoreView × Except ε α)
    (ifn : LocalStoreView → ItemState → LocalStoreView × ItemState × Except ε α) :
    ((mkLocalStore d).insideTransaction = false)
    ∧ ((LocalStoreView.txView v).insideTransaction = true)
    ∧ (Collection.insideTransaction v = v.insideTransaction)
    ∧ (Item.insideTransaction v = v.insideTransaction)
    ∧ (v.insideTransaction = true → LocalStoreView.transaction v fn = fn v)
    ∧ (v.insideTransaction = true → Item.transaction v item ifn = ifn v item) := by
  refine ⟨rfl, rfl, rfl, rfl, ?_, ?_⟩
  · intro h
    simp [LocalStoreView.transaction, h]
  · intro h
    simp [Item.transaction, Item.insideTransaction, Collection.insideTransaction, h]

/-- Witness for C7 at a concrete input: on the (non-root) transaction view
of `demoStore`, `transaction(fn)` is `fn` applied to that very view. -/
theorem insideTransaction_iff_not_root_witness :
    LocalStoreView.transaction demoStore.txView
        (fun tv => (tv, Except.ok (ε := String) ())) =
      (demoStore.txView, Except.ok ())
    ∧ Item.transaction demoStore.txView demoItem demoFailFn =
        demoFailFn demoStore.txView demoItem := by
  have h := insideTransaction_iff_not_root [] demoStore.txView demoItem
    (fun tv => (tv, Except.ok (ε := String) ())) demoFailFn
  exact ⟨h.2.2.2.2.1 rfl, h.2.2.2.2.2 rfl⟩

/-! ## Relation-scoped queries (`src/collection.js`, `src/item.js`)

`Collection#injectOriginToQuery` / `Model.injectOriginToQuery` add the
owning relation's foreign key (set to the owner's primary-key value) to the
query of every `find`/`count`/`forEach`/`findAndDelete` issued through a
relation-scoped view; the earlier `Collection` generation does the same
through `injectFixedForeignKey`. -/

/-- The options object of a query operation; only the `query` key is
touched by the injections (`clone(options)` copies the rest verbatim). -/
structure QueryOptions where
  /-- The `query` mapping (field → expected value), absent when the caller
  supplied none. -/
  query : Option Fields
deriving DecidableEq, Repr

/-- The query mapping, or the empty mapping `{}` when absent. -/
def QueryOptions.queryOrEmpty (options : QueryOptions) : Fields :=
  match options.query with
  | some q => q
  | none => []

/-- The `_origin` of a relation-scoped view: the owning relation's foreign
key and the owner item's primary-key value. -/
structure Origin where
  /-- `origin.relation.foreignKey`. -/
  foreignKey : String
  /-- `origin.item.primaryKeyValue`. -/
  ownerPrimaryKeyValue : Value
deriving DecidableEq, Repr

/-- `Collection#injectOriginToQuery` / `Model.injectOriginToQuery`: when an
origin is set, clone the options, default `query` to `{}`, and set
`query[origin.relation.foreignKey] = origin.item.primaryKeyValue`. -/
def injectOriginToQuery (origin : Option Origin) (options : QueryOptions) :
    QueryOptions :=
  match origin with
  | none => options
  | some o =>
    { query := some (options.queryOrEmpty.setVal o.foreignKey o.ownerPrimaryKeyValue) }

/-- The `fixedForeignKey` of the earlier `Collection` generation. -/
structure FixedForeignKey where
  /-- `fixedForeignKey.name`. -/
  name : String
  /-- `fixedForeignKey.value`. -/
  value : Value
deriving DecidableEq, Repr

/-- `Collection#injectFixedForeignKey` (earlier generation): when a fixed
foreign key is set, clone the options, default `query` to `{}`, and set
`query[fixedForeignKey.name] = fixedForeignKey.value`. -/
def injectFixedForeignKey (ffk : Option FixedForeignKey) (options : QueryOptions) :
    QueryOptions :=
  match ffk with
  | none => options
  | some f =>
    { query := some (options.queryOrEmpty.setVal f.name f.value) }

/-- Whether a stored record satisfies every (field, expected value) pair of
a query mapping. -/
def Fields.matchesQuery (record : Fields) (q : Fields) : Bool :=
  q.all (fun p => record.getVal p.1 == p.2)

/-- Modelled from the spec: the external `instance-store` find — returns the
records satisfying the `query` mapping of field → expected value (§6 query
options); the repository only calls it. -/
def instanceStoreFind (data : List Fields) (options : QueryOptions) : List Fields :=
  data.filter (fun r => r.matchesQuery options.queryOrEmpty)

/-- Modelled from the spec: the external `instance-store` count — the number
of records satisfying the query. -/
def instanceStoreCount (data : List Fields) (options : QueryOptions) : Nat :=
  (instanceStoreFind data options).length

/-- `Model.find` / new-generation `Collection#find` through a view whose
`_origin` may be set: the origin is injected into the query, then the store
find runs. -/
def Model.find (origin : Option Origin) (data : List Fields)
    (options : QueryOptions) : List Fields :=
  instanceStoreFind data (injectOriginToQuery origin options)

/-- `Model.count` / new-generation `Collection#count`. -/
def Model.count (origin : Option Origin) (data : List Fields)
    (options : QueryOptions) : Nat :=
  instanceStoreCount data (injectOriginToQuery origin options)

/-- `Model.forEach` / new-generation `Collection#forEach`: the records the
visitor is invoked on (the store iterates the records satisfying the
injected query). -/
def Model.forEachVisited (origin : Option Origin) (data : List Fields)
    (options : QueryOptions) : List Fields :=
  instanceStoreFind data (injectOriginToQuery origin options)

/-- `Model.findAndDelete` / new-generation `Collection#findAndDelete`:
deletes each record satisfying the injected query; returns the number of
deleted records and the remaining data. -/
def Model.findAndDelete (origin : Option Origin) (data : List Fields)
    (options : QueryOptions) : Nat × List Fields :=
  let injected := injectOriginToQuery origin options
  ((instanceStoreFind data injected).length,
   data.filter (fun r => !(r.matchesQuery injected.queryOrEmpty)))

/-- Earlier-generation `Collection#find`, scoped by `fixedForeignKey`. -/
def CollectionV1.find (ffk : Option FixedForeignKey) (data : List Fields)
    (options : QueryOptions) : List Fields :=
  instanceStoreFind data (injectFixedForeignKey ffk options)

/-- After `query[k] = v`, the pair `(k, v)` is one of the query's pairs. -/
theorem Fields.mem_setVal_self (fs : Fields) (k : String) (v : Value) :
    (k, v) ∈ fs.setVal k v := by
  unfold Fields.setVal
  cases h : fs.any (fun p => p.1 == k) with
  | false => simp [h]
  | true =>
    rcases List.any_eq_true.mp h with ⟨p, hp, hpk⟩
    simp only [if_pos rfl]
    exact List.mem_map.mpr ⟨p, hp, by simp [hpk]⟩

/-- A record satisfying a query agrees with every pair of the query. -/
theorem Fields.matchesQuery_getVal {r q : Fields} {k : String} {v : Value}
    (hm : r.matchesQuery q = true) (hmem : (k, v) ∈ q) : r.getVal k = v := by
  have hall := List.all_eq_true.mp hm _ hmem
  exact eq_of_beq hall

/-- C2: every `find`, `count`, `forEach` and `findAndDelete` issued through
a relation-scoped view (origin set by the owner item, or the earlier
generation's fixed foreign key) has the owning relation's foreign key —
set to the owner's primary-key value — added to its query, even with no
explicit query, so no record belonging to a different owner is returned,
counted, visited, or deleted through that view. -/
theorem relation_scoped_view_filters_by_owner (o : Origin) (f : FixedForeignKey)
    (data : List Fields) (options : QueryOptions) (r : Fields) :
    (r ∈ Model.find (some o) data options →
        r.getVal o.foreignKey = o.ownerPrimaryKeyValue)
    ∧ (Model.count (some o) data options = (Model.find (some o) data options).length)
    ∧ (r ∈ Model.forEachVisited (some o) data options →
        r.getVal o.foreignKey = o.ownerPrimaryKeyValue)
    ∧ (r ∈ data → r ∉ (Model.findAndDelete (some o) data options).2 →
        r.getVal o.foreignKey = o.ownerPrimaryKeyValue)
    ∧ (r ∈ CollectionV1.find (some f) data options →
        r.getVal f.name = f.value) := by
  have hq : (injectOriginToQuery (some o) options).queryOrEmpty
      = options.queryOrEmpty.setVal o.foreignKey o.ownerPrimaryKeyValue := rfl
  have hmem : (o.foreignKey, o.ownerPrimaryKeyValue)
      ∈ (injectOriginToQuery (some o) options).queryOrEmpty := by
    rw [hq]; exact Fields.mem_setVal_self _ _ _
  have hfind : ∀ s ∈ instanceStoreFind data (injectOriginToQuery (some o) options),
      s.getVal o.foreignKey = o.ownerPrimaryKeyValue := by
    intro s hs
    have hmatch := (List.mem_filter.mp hs).2
    exact Fields.matchesQuery_getVal hmatch hmem
  refine ⟨fun h => hfind r h, rfl, fun h => hfind r h, ?_, ?_⟩
  · intro hr hnot
    by_cases hmatch : r.matchesQuery
        (injectOriginToQuery (some o) options).queryOrEmpty = true
    · exact Fields.matchesQuery_getVal hmatch hmem
    · exact absurd (List.mem_filter.mpr ⟨hr, by simp [hmatch]⟩) hnot
  · intro h
    have hmemf : (f.name, f.value)
        ∈ (injectFixedForeignKey (some f) options).queryOrEmpty :=
      Fields.mem_setVal_self _ _ _
    have hmatch := (List.mem_filter.mp h).2
    exact Fields.matchesQuery_getVal hmatch hmemf

/-- The children data used by the C2 witness: one photo of album `A1`, one
of album `A2`. -/
def demoChildren : List Fields :=
  [[("id", Value.vStr "p1"), ("albumId", Value.vStr "A1")],
   [("id", Value.vStr "p2"), ("albumId", Value.vStr "A2")]]

/-- Witness for C2 at a concrete input: through the view scoped to album
`A1`, with an empty explicit query, the record returned by `find` carries
`albumId = A1`. -/
theorem relation_scoped_view_filters_by_owner_witness :
    [("id", Value.vStr "p1"), ("albumId", Value.vStr "A1")]
      ∈ Model.find (some ⟨"albumId", Value.vStr "A1"⟩) demoChildren ⟨none⟩
    ∧ Fields.getVal [("id", Value.vStr "p1"), ("albumId", Value.vStr "A1")] "albumId"
      = Value.vStr "A1" := by
  refine ⟨by decide, ?_⟩
  exact (relation_scoped_view_filters_by_owner ⟨"albumId", Value.vStr "A1"⟩
    ⟨"albumId", Value.vStr "A1"⟩ demoChildren ⟨none⟩
    [("id", Value.vStr "p1"), ("albumId", Value.vStr "A1")]).1 (by decide)

/-! ## Lifecycle status: the two generations (`src/item.js`)

The `Model` generation derives `isNew`/`isModified` from the `saved`
snapshot at each read; the `Item`/`Collection` generation stores them as
flags (`_isSaved`, `_isModified`), with `_isModified` set to true by the
`didChange` handler on any field mutation and cleared by
`Collection#get`/`put`/`getMany`/`find`. -/

/-- The state of a `Model` item: field values plus the optional `saved`
snapshot taken at the last successful load/save. -/
structure ModelItem where
  /-- The item's field values. -/
  fields : Fields
  /-- The `saved` clone, absent when never persisted. -/
  saved : Option Fields
deriving DecidableEq, Repr

/-- `Model#isNew`: `this.saved == null`. -/
def ModelItem.isNew (m : ModelItem) : Bool := m.saved.isNone

/-- `Model#isModified`: `!this.isEqualTo(this.saved)` — re-derived by value
comparison at each read. -/
def ModelItem.isModified (m : ModelItem) : Bool := !(m.saved == some m.fields)

/-- A field mutation on an `Item`: the assignment fires the `didChange`
handler, which sets `this.isModified = true` (`src/item.js` lines 292–294). -/
def ItemState.setField (it : ItemState) (k : String) (v : Value) : ItemState :=
  { it with fields := it.fields.setVal k v, isModifiedFlag := true }

/-- The flag updates `item.isNew = false; item.isModified = false` that
`Collection#get`/`put`/`getMany`/`find` perform after store I/O. -/
def ItemState.markSynced (it : ItemState) : ItemState :=
  { it with isSavedFlag := true, isModifiedFlag := false }

/-- Counterexample to C3 as stated: in the `Item`/`Collection` generation,
mutate a loaded item's field and set it back to its original value — the
current field values again equal what was last loaded, yet `isModified`
still reads `true`, because it is a sticky flag set by `didChange`, not a
comparison against a snapshot. -/
theorem isModified_sticky_flag_cex :
    (((demoItem.setField "lastName" (Value.vStr "D.")).setField
        "lastName" (Value.vStr "Daniel")).fields = demoItem.fields)
    ∧ (((demoItem.setField "lastName" (Value.vStr "D.")).setField
        "lastName" (Value.vStr "Daniel")).isModified = true)
    ∧ demoItem.isModified = false := by
  refine ⟨by decide, rfl, rfl⟩

/-- C3 amended: in the `Model` generation, `isNew` is true iff no `saved`
snapshot exists and `isModified` is re-derived at each read as "current
field values differ from the snapshot"; in the `Item`/`Collection`
generation, both are stored flags — `isModified` is set to true by the
`didChange` handler on any mutation and cleared to false by
`get`/`put`/`getMany`/`find`, not re-derived by comparison. -/
theorem isNew_isModified_semantics (m : ModelItem) (it : ItemState)
    (k : String) (v : Value) :
    (m.isNew = true ↔ m.saved = none)
    ∧ (m.isModified = true ↔ m.saved ≠ some m.fields)
    ∧ ((it.setField k v).isModified = true)
    ∧ (it.markSynced.isModified = false)
    ∧ (it.markSynced.isNew = false)
    ∧ (it.isModified = it.isModifiedFlag) := by
  refine ⟨?_, ?_, rfl, rfl, rfl, rfl⟩
  · cases h : m.saved <;> simp [ModelItem.isNew, h]
  · cases h : m.saved <;> simp [ModelItem.isModified, h]

/-! ## Class hierarchy and `getClassNames` (`src/item.js`, `src/store/local.js`)

A class is modelled by its ancestor chain (itself first, ending just before
the `Item`/`Model` base class), each entry recording whether that class's
own definition declared a primary key field.  Prototype-chain inheritance
makes `prototype.primaryKeyField` visible on a class iff the class or any
of its remaining superclasses declares one. -/

/-- One class of an ancestor chain. -/
structure ClassInfo where
  /-- The class name (`klass.name` / `klass.getName()`). -/
  name : String
  /-- Whether this class's own body declares the primary key field. -/
  definesPrimaryKey : Bool
deriving DecidableEq, Repr

/-- A class as its `getSelfAndSuperclasses()` chain: the class itself first,
then its superclasses up to (excluding) the `Item`/`Model` base. -/
abbrev Hierarchy := List ClassInfo

/-- `selfOrSuperclass.prototype.primaryKeyField` is present: the class or
one of its remaining superclasses declares a primary key (prototype-chain
inheritance). -/
def hasPrimaryKeyField : Hierarchy → Bool
  | [] => false
  | c :: rest => c.definesPrimaryKey || hasPrimaryKeyField rest

/-- `getSelfAndSuperclassesWithPrimaryKeyField()`: pushes classes in walk
order, breaking at the first class whose prototype lacks a primary key
field. -/
def getSelfAndSuperclassesWithPrimaryKeyField : Hierarchy → Hierarchy
  | [] => []
  | c :: rest =>
    if hasPrimaryKeyField (c :: rest) then
      c :: getSelfAndSuperclassesWithPrimaryKeyField rest
    else []

/-- The de-duplicating push loop of `Item.getClassNames`:
`if (!classNames.includes(name)) classNames.push(name)`. -/
def Item.getClassNamesLoop : List String → List String → List String
  | acc, [] => acc
  | acc, n :: rest =>
    Item.getClassNamesLoop (if acc.contains n then acc else acc ++ [n]) rest

/-- `Item.getClassNames()` (`src/item.js` lines 28–36). -/
def Item.getClassNames (h : Hierarchy) : List String :=
  Item.getClassNamesLoop []
    ((getSelfAndSuperclassesWithPrimaryKeyField h).map ClassInfo.name)

/-- `name.startsWith('_')` as the source uses it, computed over the
string's character list. -/
def strStartsWithUnderscore (s : String) : Bool :=
  match s.data with
  | [] => false
  | ch :: _ => ch == '_'

/-- The push loop of `Model.getClassNames`, which additionally skips names
starting with `_`. -/
def Model.getClassNamesLoop : List String → List String → List String
  | acc, [] => acc
  | acc, n :: rest =>
    if strStartsWithUnderscore n then Model.getClassNamesLoop acc rest
    else if acc.contains n then Model.getClassNamesLoop acc rest
    else Model.getClassNamesLoop (acc ++ [n]) rest

/-- `Model.getClassNames()` (`src/item.js` lines 419–429, the `Model`
generation). -/
def Model.getClassNames (h : Hierarchy) : List String :=
  Model.getClassNamesLoop []
    ((getSelfAndSuperclassesWithPrimaryKeyField h).map ClassInfo.name)

/-- The record as handed to `instanceStore.put` by `LocalStore#put`:
`put(classNames, key, instance, options)`. -/
structure StoredRecord where
  /-- `item.constructor.getClassNames()`. -/
  classNames : List String
  /-- `item.primaryKeyValue`. -/
  key : Value
  /-- `item.serialize()`. -/
  instanceData : Fields
deriving DecidableEq, Repr

/-- The stored record written by `LocalStore#put` (`src/store/local.js`
lines 162–169) for an item of the class with chain `h`. -/
def LocalStore.putRecord (h : Hierarchy) (key : Value) (inst : Fields) :
    StoredRecord :=
  { classNames := Item.getClassNames h, key := key, instanceData := inst }

/-- The accumulator is a prefix of the result of the `Item` push loop. -/
theorem itemClassNamesLoop_acc_leads (l acc : List String) :
    acc <+: Item.getClassNamesLoop acc l := by
  induction l generalizing acc with
  | nil => exact List.prefix_refl acc
  | cons n rest ih =>
    unfold Item.getClassNamesLoop
    split
    · exact ih acc
    · exact (List.prefix_append acc [n]).trans (ih (acc ++ [n]))

/-- The `Item` push loop keeps the accumulated list duplicate-free. -/
theorem Item.getClassNamesLoop_nodup (l acc : List String) (h : acc.Nodup) :
    (Item.getClassNamesLoop acc l).Nodup := by
  induction l generalizing acc with
  | nil => simpa [Item.getClassNamesLoop] using h
  | cons n rest ih =>
    unfold Item.getClassNamesLoop
    by_cases hc : acc.contains n = true
    · rw [if_pos hc]
      exact ih acc h
    · rw [if_neg hc]
      refine ih (acc ++ [n]) ?_
      have hn : n ∉ acc := by
        intro hm
        exact hc (by simpa using hm)
      simp only [List.nodup_append, List.nodup_cons, List.nodup_nil]
      refine ⟨h, by simp, ?_⟩
      intro a ha hb
      simp only [List.mem_singleton] at hb
      exact hn (hb ▸ ha)

/-- Every name produced by the `Item` push loop came from the accumulator
or the walked list. -/
theorem Item.getClassNamesLoop_mem (l acc : List String) (x : String)
    (hx : x ∈ Item.getClassNamesLoop acc l) : x ∈ acc ∨ x ∈ l := by
  induction l generalizing acc with
  | nil =>
    left
    simpa [Item.getClassNamesLoop] using hx
  | cons n rest ih =>
    rw [Item.getClassNamesLoop] at hx
    rcases ih _ hx with hacc | hrest
    · by_cases hc : acc.contains n = true
      · rw [if_pos hc] at hacc
        exact Or.inl hacc
      · rw [if_neg hc] at hacc
        rcases List.mem_append.mp hacc with h1 | h1
        · exact Or.inl h1
        · exact Or.inr (by simpa using Or.inl (List.mem_singleton.mp h1))
    · exact Or.inr (List.mem_cons_of_mem n hrest)

/-- The accumulator is a prefix of the result of the `Model` push loop. -/
theorem modelClassNamesLoop_acc_leads (l acc : List String) :
    acc <+: Model.getClassNamesLoop acc l := by
  induction l generalizing acc with
  | nil => exact List.prefix_refl acc
  | cons n rest ih =>
    unfold Model.getClassNamesLoop
    split
    · exact ih acc
    · split
      · exact ih acc
      · exact (List.prefix_append acc [n]).trans (ih (acc ++ [n]))

/-- A nonempty prefix pins down `head?`. -/
theorem head?_of_singleton_leading {x : String} {l : List String}
    (h : [x] <+: l) : l.head? = some x := by
  rcases h with ⟨t, ht⟩
  rw [← ht]
  rfl

/-- Pushing onto the empty accumulator (the `Item` loop). -/
theorem itemClassNamesLoop_nil_cons (n : String) (l : List String) :
    Item.getClassNamesLoop [] (n :: l) = Item.getClassNamesLoop [n] l := rfl

/-- Pushing onto the empty accumulator (the `Model` loop), for a name not
starting with `_`. -/
theorem modelClassNamesLoop_nil_cons {n : String} (l : List String)
    (hn : strStartsWithUnderscore n = false) :
    Model.getClassNamesLoop [] (n :: l) = Model.getClassNamesLoop [n] l := by
  conv_lhs => unfold Model.getClassNamesLoop
  rw [if_neg (by simp [hn]), if_neg (by simp), List.nil_append]

/-- The walk keeps a class while its prototype has a primary key field. -/
theorem getSelfAndSuperclassesWithPrimaryKeyField_cons (c : ClassInfo)
    (rest : Hierarchy) (h : hasPrimaryKeyField (c :: rest) = true) :
    getSelfAndSuperclassesWithPrimaryKeyField (c :: rest)
      = c :: getSelfAndSuperclassesWithPrimaryKeyField rest := by
  conv_lhs => unfold getSelfAndSuperclassesWithPrimaryKeyField
  rw [if_pos h]

/-- Counterexample to C4 as stated: for a `Model` class named `_Special`
extending `Base` (which declares the primary key), `getClassNames` returns
`["Base"]` — the first element is not the most-derived class's own name,
because the `Model` generation skips class names starting with `_`. -/
theorem getClassNames_underscore_cex :
    Model.getClassNames
        [{ name := "_Special", definesPrimaryKey := false },
         { name := "Base", definesPrimaryKey := true }] = ["Base"]
    ∧ ("Base" : String) ≠ "_Special" := by
  exact ⟨rfl, by decide⟩

/-- C4 amended: `getClassNames` walks from the class up while each class
still has a (inherited-or-own) primary key field, stops at the first class
lacking one, and returns the de-duplicated names in walk order; the list is
exactly the `classNames` written by `put`.  In the `Item` generation the
first element is always the class's own name; in the `Model` generation
names starting with `_` are skipped, so the first element is the class's
own name provided that name does not start with `_`. -/
theorem getClassNames_walk_spec (c : ClassInfo) (rest : Hierarchy)
    (key : Value) (inst : Fields) :
    (hasPrimaryKeyField (c :: rest) = true →
        (Item.getClassNames (c :: rest)).head? = some c.name)
    ∧ (Item.getClassNames (c :: rest)).Nodup
    ∧ (∀ n ∈ Item.getClassNames (c :: rest),
        n ∈ (getSelfAndSuperclassesWithPrimaryKeyField (c :: rest)).map ClassInfo.name)
    ∧ ((LocalStore.putRecord (c :: rest) key inst).classNames
        = Item.getClassNames (c :: rest))
    ∧ (hasPrimaryKeyField (c :: rest) = true →
        strStartsWithUnderscore c.name = false →
        (Model.getClassNames (c :: rest)).head? = some c.name) := by
  refine ⟨?_, ?_, ?_, rfl, ?_⟩
  · intro h
    simp only [Item.getClassNames,
      getSelfAndSuperclassesWithPrimaryKeyField_cons c rest h, List.map_cons,
      itemClassNamesLoop_nil_cons]
    exact head?_of_singleton_leading (itemClassNamesLoop_acc_leads _ [c.name])
  · exact Item.getClassNamesLoop_nodup _ [] List.nodup_nil
  · intro n hn
    rcases Item.getClassNamesLoop_mem _ [] n hn with h0 | h0
    · exact absurd h0 (List.not_mem_nil n)
    · exact h0
  · intro h hns
    simp only [Model.getClassNames,
      getSelfAndSuperclassesWithPrimaryKeyField_cons c rest h, List.map_cons,
      modelClassNamesLoop_nil_cons _ hns]
    exact head?_of_singleton_leading (modelClassNamesLoop_acc_leads _ [c.name])

/-- Witness for C4 at a concrete input: the chain `ChildPhoto < Photo`
(primary key declared on `Photo`) yields `["ChildPhoto", "Photo"]` for both
generations, headed by the most-derived class name. -/
theorem getClassNames_walk_spec_witness :
    (Item.getClassNames
        [{ name := "ChildPhoto", definesPrimaryKey := false },
         { name := "Photo", definesPrimaryKey := true }]).head?
      = some "ChildPhoto"
    ∧ (Model.getClassNames
        [{ name := "ChildPhoto", definesPrimaryKey := false },
         { name := "Photo", definesPrimaryKey := true }]).head?
      = some "ChildPhoto" := by
  have h := getClassNames_walk_spec
    { name := "ChildPhoto", definesPrimaryKey := false }
    [{ name := "Photo", definesPrimaryKey := true }] (Value.vStr "p1") []
  exact ⟨h.1 rfl, h.2.2.2.2 rfl rfl⟩

/-! ## Deleting items (`src/collection.js` lines 92–112,
`src/store/local.js` lines 173–182) -/

/-- The store error taxonomy relevant to delete/put. -/
inductive DbError where
  | notFoundError
  | alreadyExistsError
deriving DecidableEq, Repr

/-- Delete options: `errorIfMissing` is absent when the caller passed no
such key. -/
structure DeleteOptions where
  /-- `options.errorIfMissing`, absent (`none`) when not given. -/
  errorIfMissing : Option Bool
deriving DecidableEq, Repr

/-- Modelled from the spec: the external `instance-store` delete — removes
the record under the key and reports whether one was removed; a missing key
yields `false` when `errorIfMissing === false` and fails with
`NotFoundError` otherwise (§4.5/§7). -/
def instanceStoreDelete (data : StoreData) (key : Value)
    (options : DeleteOptions) : Except DbError (Bool × StoreData) :=
  if data.any (fun p => p.1 == key) then
    .ok (true, data.filter (fun p => !(p.1 == key)))
  else if options.errorIfMissing == some false then
    .ok (false, data)
  else
    .error .notFoundError

/-- `LocalStore#delete`: delegates to
`instanceStore.delete(className, key, options)` with
`key = item.primaryKeyValue` and returns `hasBeenDeleted`. -/
def LocalStore.delete (v : LocalStoreView) (pkName : String) (it : ItemState)
    (options : DeleteOptions) : Except DbError (Bool × StoreData) :=
  instanceStoreDelete v.data (it.fields.getVal pkName) options

/-- `Collection#delete`: wraps the store delete in `item.transaction`; a
store error aborts the transaction and is rethrown, a normal return yields
the `hasBeenDeleted` boolean. -/
def Collection.delete (v : LocalStoreView) (item : ItemState) (pkName : String)
    (options : DeleteOptions) : LocalStoreView × ItemState × Except DbError Bool :=
  Item.transaction v item (fun tv it =>
    match LocalStore.delete tv pkName it options with
    | .ok (b, d2) => ({ tv with data := d2 }, it, .ok b)
    | .error e => (tv, it, .error e))

/-- C5: `delete` returns a boolean saying whether a record was removed:
deleting an item whose key is absent resolves to `false` without raising
when `options.errorIfMissing === false`, fails with `NotFoundError` when
that option is not given (or is anything other than `false`), and removes
the record and returns `true` when the key is present. -/
theorem delete_returns_was_removed_boolean (v : LocalStoreView)
    (item : ItemState) (pkName : String) (options : DeleteOptions)
    (hroot : v.insideTransaction = false) :
    (v.data.any (fun p => p.1 == item.fields.getVal pkName) = false →
      (options.errorIfMissing = some false →
          Collection.delete v item pkName options = (v, item, Except.ok false))
      ∧ (options.errorIfMissing ≠ some false →
          Collection.delete v item pkName options =
            (v, item, Except.error DbError.notFoundError)))
    ∧ (v.data.any (fun p => p.1 == item.fields.getVal pkName) = true →
        Collection.delete v item pkName options =
          ({ v with data :=
              v.data.filter (fun p => !(p.1 == item.fields.getVal pkName)) },
            item, Except.ok true)) := by
  refine ⟨fun habsent => ⟨?_, ?_⟩, fun hpresent => ?_⟩
  · intro hopt
    simp [Collection.delete, Item.transaction, Item.insideTransaction,
      Collection.insideTransaction, hroot, LocalStoreView.transaction,
      LocalStore.delete, instanceStoreDelete, LocalStoreView.txView, habsent,
      hopt, ItemState.txCopy, ItemState.mergeBack, Except.map]
  · intro hopt
    have hbeq : (options.errorIfMissing == some false) = false :=
      beq_eq_false_iff_ne.mpr hopt
    simp [Collection.delete, Item.transaction, Item.insideTransaction,
      Collection.insideTransaction, hroot, LocalStoreView.transaction,
      LocalStore.delete, instanceStoreDelete, LocalStoreView.txView, habsent,
      hbeq, ItemState.txCopy, ItemState.mergeBack, Except.map]
  · simp [Collection.delete, Item.transaction, Item.insideTransaction,
      Collection.insideTransaction, hroot, LocalStoreView.transaction,
      LocalStore.delete, instanceStoreDelete, LocalStoreView.txView, hpresent,
      ItemState.txCopy, ItemState.mergeBack, Except.map]

/-- The item with the missing key `xyz` used by the C5 witness. -/
def demoMissingItem : ItemState :=
  { fields := [("id", Value.vStr "xyz")], isSavedFlag := true,
    isModifiedFlag := false }

/-- Witness for C5 at a concrete input: deleting missing key `xyz` with
`errorIfMissing: false` resolves to `false` and leaves the store unchanged;
without the option it fails with `NotFoundError` (`test.js` lines 176–182). -/
theorem delete_returns_was_removed_boolean_witness :
    Collection.delete demoStore demoMissingItem "id" ⟨some false⟩ =
      (demoStore, demoMissingItem, Except.ok false)
    ∧ Collection.delete demoStore demoMissingItem "id" ⟨none⟩ =
        (demoStore, demoMissingItem, Except.error DbError.notFoundError) := by
  constructor
  · exact ((delete_returns_was_removed_boolean demoStore demoMissingItem "id"
      ⟨some false⟩ rfl).1 (by decide)).1 rfl
  · exact ((delete_returns_was_removed_boolean demoStore demoMissingItem "id"
      ⟨none⟩ rfl).1 (by decide)).2 (by decide)

/-! ## Auto key generation (`src/item.js` lines 76–104 / 634–664)

`defineKeyField` registers a `willSave` handler that calls
`generateKeyValue(field)` for auto keys on a local store; the generator
skips fields whose current value is truthy, draws a 16-character token for
`String` keys, a random integer in `[1, max]` for `Number` keys, and throws
for any other key type. -/

/-- The field types the key generator distinguishes. -/
inductive FieldType where
  | stringType
  | numberType
  | dateType
  | booleanType
deriving DecidableEq, Repr

/-- A key field as `defineKeyField` builds it: its declared type plus the
`maxKeyValue` recorded from `options.max` (absent when not given). -/
structure KeyField where
  /-- `field.type`. -/
  type : FieldType
  /-- `field.maxKeyValue`, set by `if (options.max) field.maxKeyValue = options.max`. -/
  maxKeyValue : Option Nat
deriving DecidableEq, Repr

/-- Modelled from the spec: the external `idgen` token generator — a random
fixed-length opaque token, modelled as a length-`len` lowercase string
drawn from the seed. -/
def idgen (len : Nat) (seed : Nat) : String :=
  String.mk ((List.range len).map (fun i => Char.ofNat (97 + (seed / 26 ^ i) % 26)))

/-- `field.maxKeyValue || 2000000000` (JS `||`: a falsy stored value falls
back to the default). -/
def KeyField.maxOrDefault (f : KeyField) : Nat :=
  match f.maxKeyValue with
  | some m => if m == 0 then 2000000000 else m
  | none => 2000000000

/-- `generateKeyValue(field)` (`src/item.js` lines 90–104): returns the
item's key value after the call.  `seed` stands for the random draw;
`Math.floor(Math.random() * max) + 1` is modelled as `seed % max + 1`. -/
def generateKeyValue (field : KeyField) (current : Value) (seed : Nat) :
    Except String Value :=
  if current.truthy then .ok current
  else match field.type with
    | .stringType => .ok (.vStr (idgen 16 seed))
    | .numberType => .ok (.vNum (((seed % field.maxOrDefault) + 1 : Nat) : Int))
    | _ => .error "Unsupported key type"

/-- `field.maxKeyValue || 2000000000` is always positive. -/
theorem KeyField.maxOrDefault_pos (f : KeyField) : 0 < f.maxOrDefault := by
  cases f with
  | mk t mkv =>
    cases mkv with
    | none => norm_num [KeyField.maxOrDefault]
    | some m =>
      by_cases hm : (m == 0) = true
      · simp only [KeyField.maxOrDefault, hm, if_true]
        norm_num
      · simp only [KeyField.maxOrDefault, if_neg hm]
        exact Nat.pos_of_ne_zero (by simpa using hm)

/-- `idgen` tokens have exactly the requested length. -/
theorem idgen_length (len seed : Nat) : (idgen len seed).length = len := by
  simp [idgen, String.length]

/-- Counterexample to C6 as stated: a caller-supplied key value of `0` is
"already set", yet `generateKeyValue` overwrites it, because the source
checks JS truthiness (`if (this[field.name]) return`) and `0` is falsy. -/
theorem generateKeyValue_overwrites_zero_cex :
    generateKeyValue { type := FieldType.numberType, maxKeyValue := none }
        (Value.vNum 0) 5 = Except.ok (Value.vNum 6)
    ∧ Value.vNum 6 ≠ Value.vNum 0 := by
  exact ⟨rfl, by decide⟩

/-- C6 amended: for an auto key field whose current value is falsy
(`undefined`, but also a caller-supplied `0` or empty string, which count
as unset), the willSave phase generates a 16-character token for `String`
keys or an integer in `[1, max]` (max defaulting to 2,000,000,000) for
`Number` keys; a truthy value is never overwritten, and generated values
are always truthy, so saving twice without clearing the key never changes
it; any other key type fails with "Unsupported key type". -/
theorem generateKeyValue_spec (field : KeyField) (current : Value)
    (seed seed2 : Nat) :
    (current.truthy = true → generateKeyValue field current seed = .ok current)
    ∧ (current.truthy = false → field.type = .stringType →
        generateKeyValue field current seed = .ok (.vStr (idgen 16 seed))
        ∧ (idgen 16 seed).length = 16)
    ∧ (current.truthy = false → field.type = .numberType →
        generateKeyValue field current seed
          = .ok (.vNum (((seed % field.maxOrDefault) + 1 : Nat) : Int))
        ∧ 1 ≤ (seed % field.maxOrDefault) + 1
        ∧ (seed % field.maxOrDefault) + 1 ≤ field.maxOrDefault)
    ∧ (current.truthy = false →
        (field.type = .dateType ∨ field.type = .booleanType) →
        generateKeyValue field current seed = .error "Unsupported key type")
    ∧ (∀ v, generateKeyValue field current seed = .ok v →
        generateKeyValue field v seed2 = .ok v) := by
  refine ⟨?_, ?_, ?_, ?_, ?_⟩
  · intro h
    simp [generateKeyValue, h]
  · intro h ht
    refine ⟨by simp [generateKeyValue, h, ht], idgen_length 16 seed⟩
  · intro h ht
    refine ⟨by simp [generateKeyValue, h, ht], by omega, ?_⟩
    have := Nat.mod_lt seed (KeyField.maxOrDefault_pos field)
    omega
  · intro h ht
    rcases ht with ht | ht <;> simp [generateKeyValue, h, ht]
  · intro v hv
    by_cases h : current.truthy = true
    · have hres : generateKeyValue field current seed = .ok current := by
        simp [generateKeyValue, h]
      rw [hres] at hv
      have hv2 : current = v := by injection hv
      subst hv2
      simp [generateKeyValue, h]
    · have h0 : current.truthy = false := by simpa using h
      cases htype : field.type with
      | stringType =>
        have hres : generateKeyValue field current seed
            = .ok (.vStr (idgen 16 seed)) := by
          simp [generateKeyValue, h0, htype]
        rw [hres] at hv
        have hv2 : Value.vStr (idgen 16 seed) = v := by injection hv
        subst hv2
        have hne : (idgen 16 seed) ≠ "" := by
          intro he
          have hlen := idgen_length 16 seed
          rw [he] at hlen
          simp at hlen
        simp [generateKeyValue, Value.truthy, hne]
      | numberType =>
        have hres : generateKeyValue field current seed
            = .ok (.vNum (((seed % field.maxOrDefault) + 1 : Nat) : Int)) := by
          simp [generateKeyValue, h0, htype]
        rw [hres] at hv
        have hv2 : Value.vNum (((seed % field.maxOrDefault) + 1 : Nat) : Int) = v := by
          injection hv
        subst hv2
        have hpos : (seed : Int) % (field.maxOrDefault : Int) + 1 ≠ 0 := by
          rw [← Int.natCast_mod]
          exact_mod_cast Nat.succ_ne_zero (seed % field.maxOrDefault)
        simp [generateKeyValue, Value.truthy, hpos]
      | dateType =>
        simp [generateKeyValue, h0, htype] at hv
      | booleanType =>
        simp [generateKeyValue, h0, htype] at hv

/-- Witness for C6 at concrete inputs: an already-set truthy numeric key
value `7` is preserved, and an unset `String` key receives the 16-character
token. -/
theorem generateKeyValue_spec_witness :
    generateKeyValue { type := FieldType.numberType, maxKeyValue := none }
        (Value.vNum 7) 5 = Except.ok (Value.vNum 7)
    ∧ generateKeyValue { type := FieldType.stringType, maxKeyValue := none }
        Value.vUndefined 0 = Except.ok (Value.vStr (idgen 16 0)) := by
  constructor
  · exact (generateKeyValue_spec { type := FieldType.numberType, maxKeyValue := none }
      (Value.vNum 7) 5 5).1 (by decide)
  · exact ((generateKeyValue_spec { type := FieldType.stringType, maxKeyValue := none }
      Value.vUndefined 0 0).2.1 rfl rfl).1

/-! ## Batch-iteration checkpoints (`src/store/local.js`)

`find` and `getMany` count processed results and, after every
`RESPIRATION_RATE`-th one, await `setImmediatePromise()` — yielding control
back to the scheduler.  `forEach` delegates the whole iteration to
`instanceStore.forEach` with no such checkpoint in the facade. -/

/-- One observable step of a result-set iteration. -/
inductive IterEvent where
  | processed (i : Nat)
  | yielded
deriving DecidableEq, Repr

/-- `RESPIRATION_RATE` (`src/store/local.js` line 10). -/
def respirationRate : Nat := 250

/-- The loop body shared by `LocalStore#find` and `LocalStore#getMany`:
process each result and, `if (++iterationsCount % RESPIRATION_RATE === 0)`,
yield control; `count` is the iteration counter so far, the second argument
the number of remaining results. -/
def respirationLoop (count : Nat) : Nat → List IterEvent
  | 0 => []
  | n + 1 =>
    IterEvent.processed (count + 1) ::
      (if (count + 1) % respirationRate == 0 then
        IterEvent.yielded :: respirationLoop (count + 1) n
      else respirationLoop (count + 1) n)

/-- The scheduler trace of `LocalStore#find` over `n` results
(lines 204–217). -/
def LocalStore.findIterationTrace (n : Nat) : List IterEvent :=
  respirationLoop 0 n

/-- The scheduler trace of `LocalStore#getMany` over `n` results
(lines 184–202). -/
def LocalStore.getManyIterationTrace (n : Nat) : List IterEvent :=
  respirationLoop 0 n

/-- The scheduler trace of `LocalStore#forEach` over `n` results
(lines 225–233): every result is processed by the visitor; the facade has
no iteration counter and never yields. -/
def LocalStore.forEachIterationTrace (n : Nat) : List IterEvent :=
  (List.range n).map (fun i => IterEvent.processed (i + 1))

/-- The number of yield-to-scheduler events in a trace. -/
def yieldCount : List IterEvent → Nat
  | [] => 0
  | IterEvent.yielded :: rest => yieldCount rest + 1
  | IterEvent.processed _ :: rest => yieldCount rest

/-- The respiration loop yields once per multiple of `respirationRate`
crossed by the iteration counter. -/
theorem respirationLoop_yieldCount (n count : Nat) :
    yieldCount (respirationLoop count n)
      = (count + n) / respirationRate - count / respirationRate := by
  induction n generalizing count with
  | zero => simp [respirationLoop, yieldCount]
  | succ n ih =>
    have harr : count + (n + 1) = count + 1 + n := by omega
    rw [harr]
    have ihc := ih (count + 1)
    have hmono : (count + 1) / respirationRate ≤ (count + 1 + n) / respirationRate :=
      Nat.div_le_div_right (by omega)
    by_cases h : (count + 1) % respirationRate = 0
    · have hif : ((count + 1) % respirationRate == 0) = true := by simpa using h
      have hsucc : (count + 1) / respirationRate = count / respirationRate + 1 := by
        rw [Nat.succ_div, if_pos (Nat.dvd_of_mod_eq_zero h)]
      simp only [respirationLoop, hif, if_true, yieldCount]
      omega
    · have hif : ((count + 1) % respirationRate == 0) = false := by simpa using h
      have hsucc : (count + 1) / respirationRate = count / respirationRate := by
        rw [Nat.succ_div, if_neg (fun hd => h (Nat.dvd_iff_mod_eq_zero.mp hd))]
        omega
      simp only [respirationLoop, hif, Bool.false_eq_true, if_false, yieldCount]
      omega

/-- A trace of processed-only events contains no yields. -/
theorem yieldCount_processed_map (l : List Nat) :
    yieldCount (l.map (fun i => IterEvent.processed (i + 1))) = 0 := by
  induction l with
  | nil => rfl
  | cons a l ih => simpa [yieldCount] using ih

/-- Counterexample to C8 as stated: iterating 250 results through the store
facade's `forEach` yields control zero times, while the claim requires a
yield after every 250 processed items (as `find` indeed does). -/
theorem forEach_never_yields_cex :
    yieldCount (LocalStore.forEachIterationTrace 250) = 0
    ∧ yieldCount (LocalStore.findIterationTrace 250) = 1 := by
  constructor
  · exact yieldCount_processed_map (List.range 250)
  · rw [LocalStore.findIterationTrace, respirationLoop_yieldCount]
    norm_num [respirationRate]

/-- C8 amended: `find` and `getMany` yield control back to the scheduler
after every 250 processed results (`RESPIRATION_RATE = 250`, a constant,
not a configurable default) — `n / 250` yields over `n` results — while
`forEach` delegates iteration to the instance store without any yielding
checkpoint in the facade. -/
theorem respiration_in_find_getMany_not_forEach (n : Nat) :
    yieldCount (LocalStore.findIterationTrace n) = n / respirationRate
    ∧ yieldCount (LocalStore.getManyIterationTrace n) = n / respirationRate
    ∧ yieldCount (LocalStore.forEachIterationTrace n) = 0 := by
  refine ⟨?_, ?_, yieldCount_processed_map (List.range n)⟩
  · rw [LocalStore.findIterationTrace, respirationLoop_yieldCount]
    simp
  · rw [LocalStore.getManyIterationTrace, respirationLoop_yieldCount]
    simp

/-! ## `LocalStore#put` and the existence check (`src/store/local.js`
lines 162–171) -/

/-- Put options: `errorIfExists` is absent when the caller passed no such
key. -/
structure PutOptions where
  /-- `options.errorIfExists`, absent (`none`) when not given. -/
  errorIfExists : Option Bool
deriving DecidableEq, Repr

/-- The options `LocalStore#put` forwards to `instanceStore.put`:
`options = clone(options); if (item.isNew) options.errorIfExists = true`. -/
def LocalStore.putOptions (isNew : Bool) (options : PutOptions) : PutOptions :=
  if isNew then { options with errorIfExists := some true } else options

/-- Modelled from the spec: the external `instance-store` put — fails with
`AlreadyExistsError` when `options.errorIfExists` and a record already
exists under the key; otherwise writes the record (§4.5). -/
def instanceStorePut (data : StoreData) (key : Value) (inst : Fields)
    (options : PutOptions) : Except DbError StoreData :=
  if options.errorIfExists == some true && data.any (fun p => p.1 == key) then
    .error .alreadyExistsError
  else if data.any (fun p => p.1 == key) then
    .ok (data.map (fun p => if p.1 == key then (key, inst) else p))
  else
    .ok (data ++ [(key, inst)])

/-- `LocalStore#put`: serializes the item and hands it to
`instanceStore.put` with the `errorIfExists` adjustment for new items. -/
def LocalStore.put (data : StoreData) (isNew : Bool) (key : Value)
    (inst : Fields) (options : PutOptions) : Except DbError StoreData :=
  instanceStorePut data key inst (LocalStore.putOptions isNew options)

/-- Counterexample to C9 as stated: for an item that is *not* new,
`LocalStore#put` does not strip a caller-supplied `errorIfExists: true` —
the cloned options keep it, so an existence check *is* requested and the
put fails although `isNew` is false. -/
theorem put_errorIfExists_passthrough_cex :
    (LocalStore.putOptions false { errorIfExists := some true }).errorIfExists
      = some true
    ∧ LocalStore.put [(Value.vStr "k", [])] false (Value.vStr "k") []
        { errorIfExists := some true } = Except.error DbError.alreadyExistsError := by
  exact ⟨rfl, rfl⟩

/-- C9 amended: `LocalStore#put` forces `errorIfExists: true` whenever the
item is new; for an item that is not new it forwards the caller's options
unchanged, so with default options (no `errorIfExists`) no existence check
is requested and re-saving an already-persisted item overwrites the stored
record without raising. -/
theorem put_errorIfExists_on_isNew (options : PutOptions) (data : StoreData)
    (key : Value) (inst : Fields) :
    ((LocalStore.putOptions true options).errorIfExists = some true)
    ∧ (LocalStore.putOptions false options = options)
    ∧ (data.any (fun p => p.1 == key) = true →
        LocalStore.put data false key inst { errorIfExists := none }
          = Except.ok (data.map (fun p => if p.1 == key then (key, inst) else p)))
    ∧ (data.any (fun p => p.1 == key) = true →
        LocalStore.put data true key inst { errorIfExists := none }
          = Except.error DbError.alreadyExistsError) := by
  refine ⟨rfl, rfl, ?_, ?_⟩
  · intro hpresent
    simp [LocalStore.put, LocalStore.putOptions, instanceStorePut, hpresent]
  · intro hpresent
    simp [LocalStore.put, LocalStore.putOptions, instanceStorePut, hpresent]

/-- Witness for C9 at a concrete input: re-saving the existing record `k`
with default options succeeds and overwrites; saving it as new fails with
`AlreadyExistsError`. -/
theorem put_errorIfExists_on_isNew_witness :
    LocalStore.put [(Value.vStr "k", [])] false (Value.vStr "k")
        [("a", Value.vNum 1)] { errorIfExists := none }
      = Except.ok [(Value.vStr "k", [("a", Value.vNum 1)])]
    ∧ LocalStore.put [(Value.vStr "k", [])] true (Value.vStr "k")
        [("a", Value.vNum 1)] { errorIfExists := none }
      = Except.error DbError.alreadyExistsError := by
  constructor
  · have h := (put_errorIfExists_on_isNew { errorIfExists := none }
      [(Value.vStr "k", [])] (Value.vStr "k") [("a", Value.vNum 1)]).2.2.1 (by decide)
    rw [h]
    rfl
  · exact (put_errorIfExists_on_isNew { errorIfExists := none }
      [(Value.vStr "k", [])] (Value.vStr "k") [("a", Value.vNum 1)]).2.2.2 (by decide)

/-! ## Re-entrancy guard flags (`src/collection.js` lines 69–112) -/

/-- An item together with its transient `isSaving`/`isDeleting` guard
flags. -/
structure FlaggedItem where
  /-- The item's lifecycle state. -/
  state : ItemState
  /-- `item.isSaving`. -/
  isSaving : Bool
  /-- `item.isDeleting`. -/
  isDeleting : Bool
deriving DecidableEq, Repr

/-- `Collection#put`'s guard structure:
`try { item.isSaving = true; <transaction, events, flags> } finally
{ item.isSaving = false }`.  The body — willSave handlers, validation, the
store put, `didSave` handlers — may mutate the item and may throw at any
point, and is therefore a parameter; its effects on the item survive, its
result (or exception) is passed through. -/
def Collection.putGuard {ε : Type} (item : FlaggedItem)
    (body : FlaggedItem → FlaggedItem × Except ε Unit) :
    FlaggedItem × Except ε Unit :=
  let r := body { item with isSaving := true }
  ({ r.1 with isSaving := false }, r.2)

/-- `Collection#delete`'s guard structure: the same `try`/`finally` with
`item.isDeleting`, returning `hasBeenDeleted` on success. -/
def Collection.deleteGuard {ε : Type} (item : FlaggedItem)
    (body : FlaggedItem → FlaggedItem × Except ε Bool) :
    FlaggedItem × Except ε Bool :=
  let r := body { item with isDeleting := true }
  ({ r.1 with isDeleting := false }, r.2)

/-- C10: `Collection#put` sets `isSaving` for the duration of the save and
resets it to false on every exit path — also when validation, a `willSave`
handler, or the store throws — and `Collection#delete` does the same for
`isDeleting`: after any save or delete returns or throws, the guard flag is
false again, and the body's outcome (result or exception) is passed through
unchanged. -/
theorem guard_flags_false_after_put_delete {ε : Type} (item : FlaggedItem)
    (putBody : FlaggedItem → FlaggedItem × Except ε Unit)
    (deleteBody : FlaggedItem → FlaggedItem × Except ε Bool) :
    ((Collection.putGuard item putBody).1.isSaving = false)
    ∧ ((Collection.deleteGuard item deleteBody).1.isDeleting = false)
    ∧ ((Collection.putGuard item putBody).2
        = (putBody { item with isSaving := true }).2)
    ∧ ((Collection.deleteGuard item deleteBody).2
        = (deleteBody { item with isDeleting := true }).2)
    ∧ (({ item with isSaving := true } : FlaggedItem).isSaving = true)
    ∧ (({ item with isDeleting := true } : FlaggedItem).isDeleting = true) := by
  exact ⟨rfl, rfl, rfl, rfl, rfl, rfl⟩
